import Mathlib

/-!
# TodoApp: handler and store contracts

A shallow embedding of the Go sources

* `handler/todo_handler.go`   (`TodoHandler`, `respondJSON`),
* `store/postgres.go`         (`TodoStore`, `PostgresStore`),
* `handler/todo_handler_test.go` (`MockTodoStore`, the in-memory store),

followed by theorems about the create/get/update/delete/list contract.

Conventions of the embedding.

* Go `int` is `Int`.  The only arithmetic in the program is `m.counter++`, starting from the
  zero value, so wrap-around would need `2^63` creations and is outside the model.
* Go `error` is `Option String`: `none` is the nil error, `some msg` an error whose
  `Error()` text is `msg`.
* A Go slice is `GoSlice`: the nil slice is kept apart from an empty non-nil slice, because
  `encoding/json` writes them differently.
* A method with a pointer receiver becomes a function from the state before the call to the
  state after it, together with what the method returns.
* The request context is not modelled (no operation of the embedded code reads it).
-/

namespace TodoApp

/-! ## Data model -/

/-- Modelled from the spec: the struct `model.Todo` (package `model` is imported by every
source file but is not among them).  Spec section 3 gives the fields `id` (integer), `title`
(text), `completed` (boolean); the Go sources use them as `ID`, `Title`, `Completed`. -/
structure Todo where
  ID : Int
  Title : String
  Completed : Bool
deriving DecidableEq, Repr

/-- The zero value of `model.Todo` (`var t model.Todo`). -/
def Todo.zero : Todo := { ID := 0, Title := "", Completed := false }

/-- A Go slice of todos, `[]model.Todo`: either the nil slice or a non-nil slice with its
elements. -/
inductive GoSlice where
  | nil : GoSlice
  | mk (elems : List Todo) : GoSlice
deriving DecidableEq, Repr

/-- The elements a `range` loop visits; the nil slice has none. -/
def GoSlice.toList : GoSlice → List Todo
  | .nil => []
  | .mk elems => elems

/-- The builtin `append(s, t)`: the result is never nil. -/
def GoSlice.append (s : GoSlice) (t : Todo) : GoSlice :=
  .mk (s.toList ++ [t])

/-- The builtin `len(s)`. -/
def GoSlice.len (s : GoSlice) : Nat := s.toList.length

/-! ## HTTP responses and JSON encoding -/

/-- The JSON documents the handler can write: `null`, one todo object
`{"id":..,"title":..,"completed":..}`, or an array of todo objects. -/
inductive JsonDoc where
  | null : JsonDoc
  | object (t : Todo) : JsonDoc
  | array (ts : List Todo) : JsonDoc
deriving DecidableEq, Repr

/-- What was written to the response body. -/
inductive Body where
  | empty : Body
  | text (msg : String) : Body
  | json (doc : JsonDoc) : Body
deriving DecidableEq, Repr

/-- The recorded response: status code, `Content-Type` header and body. -/
structure Response where
  status : Nat
  contentType : String
  body : Body
deriving DecidableEq, Repr

/-- The values the handler passes to `respondJSON` as `payload interface{}`. -/
inductive Payload where
  | untypedNil : Payload
  | todo (t : Todo) : Payload
  | todoPtr (p : Option Todo) : Payload
  | todos (s : GoSlice) : Payload
deriving DecidableEq, Repr

/-- The test `payload != nil` on an interface value: only the untyped `nil` is a nil
interface; a nil slice or a nil pointer stored in an interface is not. -/
def Payload.isNilInterface : Payload → Bool
  | .untypedNil => true
  | _ => false

/-- The document `json.NewEncoder(w).Encode(payload)` writes: a nil pointer and a nil slice
are both encoded as `null`, a non-nil slice as an array. -/
def jsonEncode : Payload → JsonDoc
  | .untypedNil => .null
  | .todo t => .object t
  | .todoPtr none => .null
  | .todoPtr (some t) => .object t
  | .todos .nil => .null
  | .todos (.mk elems) => .array elems

/-- The constant `http.StatusOK`. -/
def StatusOK : Nat := 200

/-- The constant `http.StatusCreated`. -/
def StatusCreated : Nat := 201

/-- The constant `http.StatusNoContent`. -/
def StatusNoContent : Nat := 204

/-- The constant `http.StatusBadRequest`. -/
def StatusBadRequest : Nat := 400

/-- The constant `http.StatusNotFound`. -/
def StatusNotFound : Nat := 404

/-- The constant `http.StatusInternalServerError`. -/
def StatusInternalServerError : Nat := 500

/-- The library call `http.Error(w, msg, code)`: a plain-text response carrying `msg` (the
library writes it as one line). -/
def httpError (msg : String) (code : Nat) : Response :=
  { status := code, contentType := "text/plain; charset=utf-8", body := .text msg }

/-- Function `respondJSON` of `todo_handler.go`. -/
def respondJSON (status : Nat) (payload : Payload) : Response :=
  { status := status
    contentType := "application/json"
    body := if payload.isNilInterface then .empty else .json (jsonEncode payload) }

/-! ## `strconv.Atoi` -/

/-- One decimal digit, as `ch -= '0'; if ch > 9` reads it. -/
def digitValue (c : Char) : Option Nat :=
  if '0' ≤ c ∧ c ≤ '9' then some (c.toNat - '0'.toNat) else none

/-- The digit loop `n = n*10 + int(ch)`; `none` on the first character that is no digit. -/
def parseDigits : List Char → Nat → Option Nat
  | [], acc => some acc
  | c :: cs, acc =>
    match digitValue c with
    | none => none
    | some d => parseDigits cs (acc * 10 + d)

/-- The unsigned part of `strconv.Atoi`: at least one digit, all characters digits. -/
def parseUnsigned : List Char → Option Nat
  | [] => none
  | cs => parseDigits cs 0

/-- The library function `strconv.Atoi` for a 64-bit `int`: an optional sign, then one or
more decimal digits, and the value must lie in `[-2^63, 2^63 - 1]`.  `none` stands for the
non-nil error (the handler never reads the error value). -/
def atoi (s : String) : Option Int :=
  let signed : Option (Bool × Nat) :=
    match s.data with
    | '-' :: rest => (parseUnsigned rest).map (fun n => (true, n))
    | '+' :: rest => (parseUnsigned rest).map (fun n => (false, n))
    | cs => (parseUnsigned cs).map (fun n => (false, n))
  match signed with
  | none => none
  | some (neg, n) =>
    if neg then
      if n ≤ 2 ^ 63 then some (-(n : Int)) else none
    else
      if n < 2 ^ 63 then some (n : Int) else none

/-! ## The storage interface -/

/-- The interface `store.TodoStore`, for an implementation whose state has type `σ`.  Each
method takes the state before the call; the `*model.Todo` argument of `CreateTodo` and
`UpdateTodo` is passed in and handed back as the method left it. -/
structure TodoStore (σ : Type) where
  CreateTodo : σ → Todo → σ × Todo × Option String
  GetTodos : σ → σ × GoSlice × Option String
  GetTodoByID : σ → Int → σ × Option Todo × Option String
  UpdateTodo : σ → Todo → σ × Todo × Option String
  DeleteTodo : σ → Int → σ × Option String

/-! ## The request handler (`handler/todo_handler.go`) -/

section Handler

variable {σ : Type}

/-- Method `TodoHandler.GetTodos`. -/
def TodoHandler.GetTodos (store : TodoStore σ) (s : σ) : σ × Response :=
  match store.GetTodos s with
  | (s1, _, some err) => (s1, httpError err StatusInternalServerError)
  | (s1, todos, none) => (s1, respondJSON StatusOK (.todos todos))

/-- Method `TodoHandler.CreateTodo`.  `body` is the outcome of decoding the request body into a
zero `model.Todo`: the decoded todo, or the decoder's error text. -/
def TodoHandler.CreateTodo (store : TodoStore σ) (s : σ) (body : Except String Todo) :
    σ × Response :=
  match body with
  | .error err => (s, httpError err StatusBadRequest)
  | .ok todo =>
    match store.CreateTodo s todo with
    | (s1, _, some err) => (s1, httpError err StatusInternalServerError)
    | (s1, todo1, none) => (s1, respondJSON StatusCreated (.todo todo1))

/-- Method `TodoHandler.GetTodo`.  `seg` is the path segment `chi.URLParam(r, "id")`. -/
def TodoHandler.GetTodo (store : TodoStore σ) (s : σ) (seg : String) : σ × Response :=
  match atoi seg with
  | none => (s, httpError "Invalid ID" StatusBadRequest)
  | some id =>
    match store.GetTodoByID s id with
    | (s1, _, some _) => (s1, httpError "Todo not found" StatusNotFound)
    | (s1, todo, none) => (s1, respondJSON StatusOK (.todoPtr todo))

/-- Method `TodoHandler.UpdateTodo`. -/
def TodoHandler.UpdateTodo (store : TodoStore σ) (s : σ) (seg : String)
    (body : Except String Todo) : σ × Response :=
  match atoi seg with
  | none => (s, httpError "Invalid ID" StatusBadRequest)
  | some id =>
    match body with
    | .error err => (s, httpError err StatusBadRequest)
    | .ok todo =>
      match store.UpdateTodo s { todo with ID := id } with
      | (s1, _, some err) => (s1, httpError err StatusInternalServerError)
      | (s1, todo1, none) => (s1, respondJSON StatusOK (.todo todo1))

/-- Method `TodoHandler.DeleteTodo`. -/
def TodoHandler.DeleteTodo (store : TodoStore σ) (s : σ) (seg : String) : σ × Response :=
  match atoi seg with
  | none => (s, httpError "Invalid ID" StatusBadRequest)
  | some id =>
    match store.DeleteTodo s id with
    | (s1, some err) => (s1, httpError err StatusInternalServerError)
    | (s1, none) => (s1, respondJSON StatusNoContent .untypedNil)

end Handler

/-! ## The in-memory store (`MockTodoStore` of `handler/todo_handler_test.go`) -/

/-- The struct `MockTodoStore`. -/
structure MockTodoStore where
  todos : GoSlice
  err : Option String
  counter : Int
deriving DecidableEq, Repr

/-- The value `&MockTodoStore{}`: nil slice, nil error, counter 0. -/
def MockTodoStore.empty : MockTodoStore :=
  { todos := .nil, err := none, counter := 0 }

/-- Method `MockTodoStore.CreateTodo`. -/
def MockTodoStore.CreateTodo (m : MockTodoStore) (todo : Todo) :
    MockTodoStore × Todo × Option String :=
  match m.err with
  | some e => (m, todo, some e)
  | none =>
    let counter := m.counter + 1
    let todo1 : Todo := { todo with ID := counter }
    ({ m with counter := counter, todos := m.todos.append todo1 }, todo1, none)

/-- Method `MockTodoStore.GetTodos`. -/
def MockTodoStore.GetTodos (m : MockTodoStore) : MockTodoStore × GoSlice × Option String :=
  match m.err with
  | some e => (m, .nil, some e)
  | none => (m, m.todos, none)

/-- The loop of `MockTodoStore.GetTodoByID`: the first element whose `ID` is `id`. -/
def findByID : List Todo → Int → Option Todo
  | [], _ => none
  | t :: rest, id => if t.ID = id then some t else findByID rest id

/-- Method `MockTodoStore.GetTodoByID`. -/
def MockTodoStore.GetTodoByID (m : MockTodoStore) (id : Int) :
    MockTodoStore × Option Todo × Option String :=
  match m.err with
  | some e => (m, none, some e)
  | none =>
    match findByID m.todos.toList id with
    | some t => (m, some t, none)
    | none => (m, none, some "not found")

/-- The loop of `MockTodoStore.UpdateTodo`: `m.todos[i] = *todo` at the first index whose
element has `todo.ID`; `none` when the loop ends without a match. -/
def replaceFirst : List Todo → Todo → Option (List Todo)
  | [], _ => none
  | t :: rest, todo =>
    if t.ID = todo.ID then some (todo :: rest)
    else (replaceFirst rest todo).map (fun rest1 => t :: rest1)

/-- Method `MockTodoStore.UpdateTodo`. -/
def MockTodoStore.UpdateTodo (m : MockTodoStore) (todo : Todo) :
    MockTodoStore × Todo × Option String :=
  match m.err with
  | some e => (m, todo, some e)
  | none =>
    match replaceFirst m.todos.toList todo with
    | some elems => ({ m with todos := .mk elems }, todo, none)
    | none => (m, todo, some "not found on update")

/-- The loop of `MockTodoStore.DeleteTodo`: `append(m.todos[:i], m.todos[i+1:]...)` at the
first index whose element has `id`; `none` when the loop ends without a match. -/
def removeFirst : List Todo → Int → Option (List Todo)
  | [], _ => none
  | t :: rest, id =>
    if t.ID = id then some rest
    else (removeFirst rest id).map (fun rest1 => t :: rest1)

/-- Method `MockTodoStore.DeleteTodo`. -/
def MockTodoStore.DeleteTodo (m : MockTodoStore) (id : Int) : MockTodoStore × Option String :=
  match m.err with
  | some e => (m, some e)
  | none =>
    match removeFirst m.todos.toList id with
    | some elems => ({ m with todos := .mk elems }, none)
    | none => (m, some "not found on delete")

/-- The in-memory store as an implementation of `TodoStore`. -/
def mockStore : TodoStore MockTodoStore :=
  { CreateTodo := MockTodoStore.CreateTodo
    GetTodos := MockTodoStore.GetTodos
    GetTodoByID := MockTodoStore.GetTodoByID
    UpdateTodo := MockTodoStore.UpdateTodo
    DeleteTodo := MockTodoStore.DeleteTodo }

/-- The operations that change the in-memory store. -/
inductive MockOp where
  | create (t : Todo) : MockOp
  | update (t : Todo) : MockOp
  | delete (id : Int) : MockOp
deriving DecidableEq, Repr

/-- The store after one operation (whether or not the operation reported an error). -/
def MockOp.apply (m : MockTodoStore) : MockOp → MockTodoStore
  | .create t => (m.CreateTodo t).1
  | .update t => (m.UpdateTodo t).1
  | .delete id => (m.DeleteTodo id).1

/-- The store after a sequence of operations, first operation first. -/
def runOps : List MockOp → MockTodoStore → MockTodoStore
  | [], m => m
  | op :: ops, m => runOps ops (op.apply m)

/-- The ids handed out by the successful `CreateTodo` calls of a sequence of operations, in
the order of the calls. -/
def assignedIDs : List MockOp → MockTodoStore → List Int
  | [], _ => []
  | .create t :: ops, m =>
    match m.CreateTodo t with
    | (m1, t1, none) => t1.ID :: assignedIDs ops m1
    | (m1, _, some _) => assignedIDs ops m1
  | op :: ops, m => assignedIDs ops (op.apply m)

/-- A store state reachable from `&MockTodoStore{}` by create, update and delete calls. -/
def Reachable (m : MockTodoStore) : Prop :=
  ∃ ops : List MockOp, runOps ops MockTodoStore.empty = m

/-- The ids of the todos a store holds, in slice order. -/
def MockTodoStore.ids (m : MockTodoStore) : List Int :=
  m.todos.toList.map Todo.ID

/-! ## Recording the calls a handler makes -/

/-- One call of a `TodoStore` method, with its argument. -/
inductive StoreCall where
  | CreateTodo (t : Todo) : StoreCall
  | GetTodos : StoreCall
  | GetTodoByID (id : Int) : StoreCall
  | UpdateTodo (t : Todo) : StoreCall
  | DeleteTodo (id : Int) : StoreCall
deriving DecidableEq, Repr

/-- Any store, wrapped so that every method call is appended to a log before it is passed
on unchanged. -/
def recording {σ : Type} (store : TodoStore σ) : TodoStore (σ × List StoreCall) :=
  { CreateTodo := fun (s, log) t =>
      match store.CreateTodo s t with
      | (s1, t1, e) => ((s1, log ++ [.CreateTodo t]), t1, e)
    GetTodos := fun (s, log) =>
      match store.GetTodos s with
      | (s1, ts, e) => ((s1, log ++ [.GetTodos]), ts, e)
    GetTodoByID := fun (s, log) id =>
      match store.GetTodoByID s id with
      | (s1, t, e) => ((s1, log ++ [.GetTodoByID id]), t, e)
    UpdateTodo := fun (s, log) t =>
      match store.UpdateTodo s t with
      | (s1, t1, e) => ((s1, log ++ [.UpdateTodo t]), t1, e)
    DeleteTodo := fun (s, log) id =>
      match store.DeleteTodo s id with
      | (s1, e) => ((s1, log ++ [.DeleteTodo id]), e) }

/-! ## The relational store (`store/postgres.go`) -/

/-- The database behind `*pgxpool.Pool`, as far as the five statements of `postgres.go` can
tell: the rows of table `todos`, the last value of the sequence that feeds column `id`, and
`failure`, the error every statement reports while the database cannot be used (`none` when
it is healthy). -/
structure PgDb where
  rows : List Todo
  serial : Int
  failure : Option String
deriving DecidableEq, Repr

/-- What `Exec` returns: the number of affected rows (the command tag) and the error. -/
structure ExecResult where
  rowsAffected : Nat
  err : Option String
deriving DecidableEq, Repr

/-- The statement `INSERT INTO todos (title, completed) VALUES ($1, $2) RETURNING id` run by
`QueryRow(...).Scan(&todo.ID)`: the new id, or the error. -/
def PgDb.insertReturningID (db : PgDb) (title : String) (completed : Bool) :
    PgDb × Except String Int :=
  match db.failure with
  | some e => (db, .error e)
  | none =>
    let id := db.serial + 1
    ({ db with rows := db.rows ++ [{ ID := id, Title := title, Completed := completed }],
               serial := id }, .ok id)

/-- The statement `SELECT id, title, completed FROM todos ORDER BY id` run by `Query`: the
error, or the rows in ascending id order, each with the outcome of its `Scan`. -/
def PgDb.selectAllOrderByID (db : PgDb) : Except String (List (Except String Todo)) :=
  match db.failure with
  | some e => .error e
  | none => .ok ((db.rows.insertionSort (fun a b => a.ID ≤ b.ID)).map Except.ok)

/-- The statement `SELECT id, title, completed FROM todos WHERE id = $1` run by
`QueryRow(...).Scan(...)`: the row, or the error (`no rows in result set` without a row). -/
def PgDb.selectByID (db : PgDb) (id : Int) : Except String Todo :=
  match db.failure with
  | some e => .error e
  | none =>
    match db.rows.find? (fun r => r.ID = id) with
    | some r => .ok r
    | none => .error "no rows in result set"

/-- The statement `UPDATE todos SET title = $1, completed = $2 WHERE id = $3` run by
`Exec`. -/
def PgDb.execUpdate (db : PgDb) (title : String) (completed : Bool) (id : Int) :
    PgDb × ExecResult :=
  match db.failure with
  | some e => (db, { rowsAffected := 0, err := some e })
  | none =>
    ({ db with rows := db.rows.map (fun r =>
          if r.ID = id then { r with Title := title, Completed := completed } else r) },
     { rowsAffected := db.rows.countP (fun r => r.ID = id), err := none })

/-- The statement `DELETE FROM todos WHERE id = $1` run by `Exec`. -/
def PgDb.execDelete (db : PgDb) (id : Int) : PgDb × ExecResult :=
  match db.failure with
  | some e => (db, { rowsAffected := 0, err := some e })
  | none =>
    ({ db with rows := db.rows.filter (fun r => r.ID ≠ id) },
     { rowsAffected := db.rows.countP (fun r => r.ID = id), err := none })

/-- Method `PostgresStore.CreateTodo`. -/
def PostgresStore.CreateTodo (db : PgDb) (todo : Todo) : PgDb × Todo × Option String :=
  match db.insertReturningID todo.Title todo.Completed with
  | (db1, .ok id) => (db1, { todo with ID := id }, none)
  | (db1, .error e) => (db1, todo, some e)

/-- The loop `for rows.Next()` of `PostgresStore.GetTodos`, started with the slice
accumulated so far: a failed `Scan` returns `nil` and the error at once. -/
def scanRows : List (Except String Todo) → GoSlice → GoSlice × Option String
  | [], todos => (todos, none)
  | .error e :: _, _ => (.nil, some e)
  | .ok t :: rest, todos => scanRows rest (todos.append t)

/-- Method `PostgresStore.GetTodos`: `var todos []model.Todo` starts as the nil slice. -/
def PostgresStore.GetTodos (db : PgDb) : PgDb × GoSlice × Option String :=
  match db.selectAllOrderByID with
  | .error e => (db, .nil, some e)
  | .ok rows =>
    match scanRows rows .nil with
    | (todos, e) => (db, todos, e)

/-- Method `PostgresStore.GetTodoByID`. -/
def PostgresStore.GetTodoByID (db : PgDb) (id : Int) : PgDb × Option Todo × Option String :=
  match db.selectByID id with
  | .error e => (db, none, some e)
  | .ok t => (db, some t, none)

/-- Method `PostgresStore.UpdateTodo`: the command tag is dropped (`_, err := ...`). -/
def PostgresStore.UpdateTodo (db : PgDb) (todo : Todo) : PgDb × Todo × Option String :=
  match db.execUpdate todo.Title todo.Completed todo.ID with
  | (db1, res) => (db1, todo, res.err)

/-- Method `PostgresStore.DeleteTodo`: the command tag is dropped (`_, err := ...`). -/
def PostgresStore.DeleteTodo (db : PgDb) (id : Int) : PgDb × Option String :=
  match db.execDelete id with
  | (db1, res) => (db1, res.err)

/-- The relational store as an implementation of `TodoStore`. -/
def postgresStore : TodoStore PgDb :=
  { CreateTodo := PostgresStore.CreateTodo
    GetTodos := PostgresStore.GetTodos
    GetTodoByID := PostgresStore.GetTodoByID
    UpdateTodo := PostgresStore.UpdateTodo
    DeleteTodo := PostgresStore.DeleteTodo }

/-! ## The invariant of the in-memory store -/

/-- What every reachable in-memory store satisfies: no injected error, ids strictly ascending
in slice order, and no id above the counter. -/
def StoreInv (m : MockTodoStore) : Prop :=
  m.err = none ∧ List.Sorted (· < ·) m.ids ∧ ∀ i ∈ m.ids, i ≤ m.counter

/-! ## Lemmas on the three loops -/

theorem findByID_eq_none_iff (l : List Todo) (id : Int) :
    findByID l id = none ↔ id ∉ l.map Todo.ID := by
  induction l with
  | nil => simp [findByID]
  | cons t rest ih =>
    by_cases h : t.ID = id
    · simp [findByID, h]
    · have h2 : ¬ id = t.ID := fun e => h e.symm
      simp [findByID, h, h2, ih]

theorem findByID_some_id (l : List Todo) (id : Int) (t : Todo) (h : findByID l id = some t) :
    t.ID = id ∧ t ∈ l := by
  induction l with
  | nil => simp [findByID] at h
  | cons u rest ih =>
    by_cases hu : u.ID = id
    · simp [findByID, hu] at h
      subst h
      exact ⟨hu, List.mem_cons_self _ _⟩
    · simp [findByID, hu] at h
      exact ⟨(ih h).1, List.mem_cons_of_mem _ (ih h).2⟩

theorem findByID_append_new (l : List Todo) (c : Todo) (h : c.ID ∉ l.map Todo.ID) :
    findByID (l ++ [c]) c.ID = some c := by
  induction l with
  | nil => simp [findByID]
  | cons u rest ih =>
    have hu : ¬ u.ID = c.ID := by
      intro e
      exact h (by simp [e])
    have hrest : c.ID ∉ rest.map Todo.ID := by
      intro e
      exact h (by simp only [List.map_cons]; exact List.mem_cons_of_mem _ e)
    simp [findByID, hu, ih hrest]

theorem replaceFirst_eq_none_iff (l : List Todo) (todo : Todo) :
    replaceFirst l todo = none ↔ todo.ID ∉ l.map Todo.ID := by
  induction l with
  | nil => simp [replaceFirst]
  | cons t rest ih =>
    by_cases h : t.ID = todo.ID
    · simp [replaceFirst, h]
    · have h2 : ¬ todo.ID = t.ID := fun e => h e.symm
      simp [replaceFirst, h, h2, ih]

theorem replaceFirst_ids (l l1 : List Todo) (todo : Todo) (h : replaceFirst l todo = some l1) :
    l1.map Todo.ID = l.map Todo.ID := by
  induction l generalizing l1 with
  | nil => simp [replaceFirst] at h
  | cons t rest ih =>
    by_cases ht : t.ID = todo.ID
    · simp [replaceFirst, ht] at h
      subst h
      simp [ht]
    · simp [replaceFirst, ht] at h
      obtain ⟨r1, hr1, rfl⟩ := h
      simp [ih r1 hr1]

theorem findByID_replaceFirst_same (l l1 : List Todo) (todo : Todo)
    (h : replaceFirst l todo = some l1) : findByID l1 todo.ID = some todo := by
  induction l generalizing l1 with
  | nil => simp [replaceFirst] at h
  | cons t rest ih =>
    by_cases ht : t.ID = todo.ID
    · simp [replaceFirst, ht] at h
      subst h
      simp [findByID]
    · simp [replaceFirst, ht] at h
      obtain ⟨r1, hr1, rfl⟩ := h
      simp [findByID, ht, ih r1 hr1]

theorem findByID_replaceFirst_other (l l1 : List Todo) (todo : Todo) (j : Int)
    (h : replaceFirst l todo = some l1) (hj : j ≠ todo.ID) :
    findByID l1 j = findByID l j := by
  induction l generalizing l1 with
  | nil => simp [replaceFirst] at h
  | cons t rest ih =>
    by_cases ht : t.ID = todo.ID
    · simp [replaceFirst, ht] at h
      subst h
      have h1 : ¬ todo.ID = j := fun e => hj e.symm
      have h2 : ¬ t.ID = j := fun e => hj (by rw [← e, ht])
      simp [findByID, h1, h2]
    · simp [replaceFirst, ht] at h
      obtain ⟨r1, hr1, rfl⟩ := h
      simp [findByID, ih r1 hr1]

theorem removeFirst_eq_none_iff (l : List Todo) (id : Int) :
    removeFirst l id = none ↔ id ∉ l.map Todo.ID := by
  induction l with
  | nil => simp [removeFirst]
  | cons t rest ih =>
    by_cases h : t.ID = id
    · simp [removeFirst, h]
    · have h2 : ¬ id = t.ID := fun e => h e.symm
      simp [removeFirst, h, h2, ih]

theorem removeFirst_sublist (l l1 : List Todo) (id : Int) (h : removeFirst l id = some l1) :
    l1.Sublist l := by
  induction l generalizing l1 with
  | nil => simp [removeFirst] at h
  | cons t rest ih =>
    by_cases ht : t.ID = id
    · simp [removeFirst, ht] at h
      subst h
      exact List.sublist_cons_self _ _
    · simp [removeFirst, ht] at h
      obtain ⟨r1, hr1, rfl⟩ := h
      exact (ih r1 hr1).cons₂ _

theorem removeFirst_eq_filter (l l1 : List Todo) (id : Int) (hnd : (l.map Todo.ID).Nodup)
    (h : removeFirst l id = some l1) : l1 = l.filter (fun t => t.ID ≠ id) := by
  induction l generalizing l1 with
  | nil => simp [removeFirst] at h
  | cons t rest ih =>
    simp only [List.map_cons, List.nodup_cons] at hnd
    by_cases ht : t.ID = id
    · simp [removeFirst, ht] at h
      subst h
      have hall : ∀ u ∈ rest, u.ID ≠ id := by
        intro u hu e
        exact hnd.1 (by rw [ht, ← e]; exact List.mem_map_of_mem _ hu)
      rw [List.filter_cons_of_neg (by simp [ht])]
      symm
      rw [List.filter_eq_self]
      intro u hu
      simpa using hall u hu
    · simp [removeFirst, ht] at h
      obtain ⟨r1, hr1, rfl⟩ := h
      rw [List.filter_cons_of_pos (by simp [ht]), ih r1 hnd.2 hr1]

/-! ## The invariant holds in every reachable state -/

theorem storeInv_empty : StoreInv MockTodoStore.empty := by
  simp [StoreInv, MockTodoStore.empty, MockTodoStore.ids, GoSlice.toList]

theorem storeInv_create (m : MockTodoStore) (t : Todo) (h : StoreInv m) :
    StoreInv (m.CreateTodo t).1 := by
  obtain ⟨he, hs, hb⟩ := h
  simp only [MockTodoStore.CreateTodo, he]
  refine ⟨rfl, ?_, ?_⟩
  · simp only [MockTodoStore.ids, GoSlice.append, GoSlice.toList, List.map_append,
      List.map_cons, List.map_nil]
    rw [List.Sorted, List.pairwise_append]
    refine ⟨hs, List.pairwise_singleton _ _, ?_⟩
    intro a ha b hb1
    simp only [List.mem_singleton] at hb1
    subst hb1
    have := hb a ha
    omega
  · intro i hi
    simp only [MockTodoStore.ids, GoSlice.append, GoSlice.toList, List.map_append,
      List.map_cons, List.map_nil, List.mem_append, List.mem_singleton] at hi
    rcases hi with hi | hi
    · have := hb i hi
      show i ≤ m.counter + 1
      omega
    · show i ≤ m.counter + 1
      omega

theorem storeInv_update (m : MockTodoStore) (t : Todo) (h : StoreInv m) :
    StoreInv (m.UpdateTodo t).1 := by
  obtain ⟨he, hs, hb⟩ := h
  simp only [MockTodoStore.UpdateTodo, he]
  cases hr : replaceFirst m.todos.toList t with
  | none => exact ⟨he, hs, hb⟩
  | some l1 =>
    have hids : l1.map Todo.ID = m.ids := replaceFirst_ids _ _ _ hr
    refine ⟨rfl, ?_, ?_⟩
    · simpa [MockTodoStore.ids, GoSlice.toList, hids] using hs
    · simpa [MockTodoStore.ids, GoSlice.toList, hids] using hb

theorem storeInv_delete (m : MockTodoStore) (id : Int) (h : StoreInv m) :
    StoreInv (m.DeleteTodo id).1 := by
  obtain ⟨he, hs, hb⟩ := h
  simp only [MockTodoStore.DeleteTodo, he]
  cases hr : removeFirst m.todos.toList id with
  | none => exact ⟨he, hs, hb⟩
  | some l1 =>
    have hsub : (l1.map Todo.ID).Sublist m.ids := (removeFirst_sublist _ _ _ hr).map _
    refine ⟨rfl, ?_, ?_⟩
    · exact List.Pairwise.sublist hsub hs
    · intro i hi
      exact hb i (hsub.subset hi)

theorem storeInv_apply (m : MockTodoStore) (op : MockOp) (h : StoreInv m) :
    StoreInv (op.apply m) := by
  cases op with
  | create t => exact storeInv_create m t h
  | update t => exact storeInv_update m t h
  | delete id => exact storeInv_delete m id h

theorem storeInv_runOps (ops : List MockOp) (m : MockTodoStore) (h : StoreInv m) :
    StoreInv (runOps ops m) := by
  induction ops generalizing m with
  | nil => exact h
  | cons op ops ih => exact ih _ (storeInv_apply m op h)

theorem storeInv_of_reachable (m : MockTodoStore) (h : Reachable m) : StoreInv m := by
  obtain ⟨ops, rfl⟩ := h
  exact storeInv_runOps ops _ storeInv_empty

theorem StoreInv.nodup {m : MockTodoStore} (h : StoreInv m) : m.ids.Nodup :=
  (List.Sorted.nodup h.2.1)

theorem removeFirst_length (l l1 : List Todo) (id : Int) (h : removeFirst l id = some l1) :
    l1.length + 1 = l.length := by
  induction l generalizing l1 with
  | nil => simp [removeFirst] at h
  | cons t rest ih =>
    by_cases ht : t.ID = id
    · simp [removeFirst, ht] at h
      subst h
      simp
    · simp [removeFirst, ht] at h
      obtain ⟨r1, hr1, rfl⟩ := h
      simp [ih r1 hr1]

theorem apply_err (m : MockTodoStore) (op : MockOp) (h : m.err = none) :
    (op.apply m).err = none := by
  cases op with
  | create t => simp [MockOp.apply, MockTodoStore.CreateTodo, h]
  | update t =>
    simp only [MockOp.apply, MockTodoStore.UpdateTodo, h]
    cases replaceFirst m.todos.toList t <;> simp [h]
  | delete id =>
    simp only [MockOp.apply, MockTodoStore.DeleteTodo, h]
    cases removeFirst m.todos.toList id <;> simp [h]

theorem apply_counter_le (m : MockTodoStore) (op : MockOp) :
    m.counter ≤ (op.apply m).counter := by
  cases op with
  | create t =>
    simp only [MockOp.apply, MockTodoStore.CreateTodo]
    cases m.err <;> simp
  | update t =>
    simp only [MockOp.apply, MockTodoStore.UpdateTodo]
    cases m.err with
    | some e => simp
    | none => cases replaceFirst m.todos.toList t <;> simp
  | delete id =>
    simp only [MockOp.apply, MockTodoStore.DeleteTodo]
    cases m.err with
    | some e => simp
    | none => cases removeFirst m.todos.toList id <;> simp

/-- The ids handed out after a state with no injected error are strictly ascending and all
above the counter of that state. -/
theorem assignedIDs_sorted (ops : List MockOp) (m : MockTodoStore) (h : m.err = none) :
    List.Sorted (· < ·) (assignedIDs ops m) ∧ ∀ i ∈ assignedIDs ops m, m.counter < i := by
  induction ops generalizing m with
  | nil => simp [assignedIDs]
  | cons op ops ih =>
    cases op with
    | create t =>
      have hstep : assignedIDs (MockOp.create t :: ops) m
          = (m.counter + 1) :: assignedIDs ops (MockOp.apply m (.create t)) := by
        simp [assignedIDs, MockOp.apply, MockTodoStore.CreateTodo, h]
      have hc : (MockOp.apply m (.create t)).counter = m.counter + 1 := by
        simp [MockOp.apply, MockTodoStore.CreateTodo, h]
      obtain ⟨ih1, ih2⟩ := ih _ (apply_err m (.create t) h)
      rw [hstep]
      refine ⟨List.sorted_cons.mpr ⟨?_, ih1⟩, ?_⟩
      · intro b hb
        have := ih2 b hb
        omega
      · intro i hi
        rcases List.mem_cons.mp hi with hi | hi
        · omega
        · have := ih2 i hi
          omega
    | update t =>
      have hstep : assignedIDs (MockOp.update t :: ops) m
          = assignedIDs ops (MockOp.apply m (.update t)) := by
        simp [assignedIDs]
      obtain ⟨ih1, ih2⟩ := ih _ (apply_err m (.update t) h)
      rw [hstep]
      refine ⟨ih1, fun i hi => ?_⟩
      have h1 := ih2 i hi
      have h2 := apply_counter_le m (.update t)
      omega
    | delete id =>
      have hstep : assignedIDs (MockOp.delete id :: ops) m
          = assignedIDs ops (MockOp.apply m (.delete id)) := by
        simp [assignedIDs]
      obtain ⟨ih1, ih2⟩ := ih _ (apply_err m (.delete id) h)
      rw [hstep]
      refine ⟨ih1, fun i hi => ?_⟩
      have h1 := ih2 i hi
      have h2 := apply_counter_le m (.delete id)
      omega

/-! ## The contract of the in-memory store behind the handler -/

theorem getTodo_mock_found (m : MockTodoStore) (seg : String) (id : Int) (t : Todo)
    (hseg : atoi seg = some id) (he : m.err = none)
    (hfind : findByID m.todos.toList id = some t) :
    TodoHandler.GetTodo mockStore m seg
      = (m, { status := 200, contentType := "application/json",
              body := .json (.object t) }) := by
  simp [TodoHandler.GetTodo, hseg, mockStore, MockTodoStore.GetTodoByID, he, hfind,
    respondJSON, Payload.isNilInterface, jsonEncode, StatusOK]

theorem getTodo_mock_missing (m : MockTodoStore) (seg : String) (id : Int)
    (hseg : atoi seg = some id) (he : m.err = none)
    (hfind : findByID m.todos.toList id = none) :
    TodoHandler.GetTodo mockStore m seg
      = (m, { status := 404, contentType := "text/plain; charset=utf-8",
              body := .text "Todo not found" }) := by
  simp [TodoHandler.GetTodo, hseg, mockStore, MockTodoStore.GetTodoByID, he, hfind,
    httpError, StatusNotFound]

/-- C1 (create/get round trip): in every in-memory store state reachable from the empty
store, handler `CreateTodo` on a decoded todo `t` responds 201 with a todo `c` that carries
the title and completed flag of `t` and the id `counter + 1`; handler `GetTodo` on any path
segment that reads as `c.ID` then responds 200 with the same todo `c` and leaves the store
as it is. -/
theorem create_get_round_trip (m : MockTodoStore) (t : Todo) (hm : Reachable m) :
    ∃ (m1 : MockTodoStore) (c : Todo),
      TodoHandler.CreateTodo mockStore m (.ok t)
          = (m1, { status := 201, contentType := "application/json",
                   body := .json (.object c) })
      ∧ c = { t with ID := m.counter + 1 }
      ∧ ∀ seg : String, atoi seg = some c.ID →
          TodoHandler.GetTodo mockStore m1 seg
            = (m1, { status := 200, contentType := "application/json",
                     body := .json (.object c) }) := by
  obtain ⟨he, _, hb⟩ := storeInv_of_reachable m hm
  refine ⟨(m.CreateTodo t).1, { t with ID := m.counter + 1 }, ?_, rfl, ?_⟩
  · simp [TodoHandler.CreateTodo, mockStore, MockTodoStore.CreateTodo, he, respondJSON,
      Payload.isNilInterface, jsonEncode, StatusCreated]
  · intro seg hseg
    have hnew : (m.counter + 1) ∉ m.todos.toList.map Todo.ID := by
      intro hmem
      have := hb _ hmem
      omega
    have hfind := findByID_append_new m.todos.toList { t with ID := m.counter + 1 } hnew
    have he1 : (m.CreateTodo t).1.err = none := by simp [MockTodoStore.CreateTodo, he]
    have hl : (m.CreateTodo t).1.todos.toList
        = m.todos.toList ++ [{ t with ID := m.counter + 1 }] := by
      simp [MockTodoStore.CreateTodo, he, GoSlice.append, GoSlice.toList]
    exact getTodo_mock_found _ seg _ _ hseg he1 (by rw [hl]; exact hfind)

/-- Witness for C1: the store after two creates and one delete, a new todo that carries the
caller-chosen id 42, and the path segment "3". -/
theorem create_get_round_trip_witness :
    Reachable (runOps [.create Todo.zero, .create Todo.zero, .delete 1] MockTodoStore.empty)
    ∧ atoi "3" = some 3
    ∧ ∃ (m1 : MockTodoStore) (c : Todo),
      TodoHandler.CreateTodo mockStore
          (runOps [.create Todo.zero, .create Todo.zero, .delete 1] MockTodoStore.empty)
          (.ok { ID := 42, Title := "milk", Completed := false })
          = (m1, { status := 201, contentType := "application/json",
                   body := .json (.object c) })
      ∧ c = { ID := 3, Title := "milk", Completed := false }
      ∧ TodoHandler.GetTodo mockStore m1 "3"
          = (m1, { status := 200, contentType := "application/json",
                   body := .json (.object c) }) := by
  refine ⟨⟨_, rfl⟩, by decide, ?_⟩
  obtain ⟨m1, c, h1, h2, h3⟩ :=
    create_get_round_trip
      (runOps [.create Todo.zero, .create Todo.zero, .delete 1] MockTodoStore.empty)
      { ID := 42, Title := "milk", Completed := false } ⟨_, rfl⟩
  exact ⟨m1, c, h1, h2, h3 "3" (by rw [h2]; decide)⟩

/-- C2 (id assignment): for every sequence of create, update and delete operations run on
the empty in-memory store, the ids handed out by the successful creates are pairwise
distinct, the todos the store holds afterwards have pairwise distinct ids, and a further
create of any todo `t` succeeds and gives it the id `counter + 1`, whatever `t.ID` was. -/
theorem ids_assigned_by_store (ops : List MockOp) :
    (assignedIDs ops MockTodoStore.empty).Nodup
    ∧ (runOps ops MockTodoStore.empty).ids.Nodup
    ∧ ∀ t : Todo,
        ((runOps ops MockTodoStore.empty).CreateTodo t).2
          = ({ t with ID := (runOps ops MockTodoStore.empty).counter + 1 }, none) := by
  have hinv := storeInv_runOps ops _ storeInv_empty
  refine ⟨List.Sorted.nodup (assignedIDs_sorted ops _ rfl).1, hinv.nodup, ?_⟩
  intro t
  simp [MockTodoStore.CreateTodo, hinv.1]

/-- C3 (update uses the path id): in every reachable in-memory store state, for a path
segment that reads as an id `id` held by the store and a decoded body `t2` with any id of
its own, handler `UpdateTodo` responds 200 with `t2` carrying `id`; a following `GetTodo` on
the same segment responds 200 with that todo; the ids held and the counter are as before;
and `GetTodo` on a segment that reads as any other id (the body id included) answers as it
did before the update. -/
theorem update_uses_path_id (m : MockTodoStore) (id : Int) (t2 : Todo) (seg : String)
    (hm : Reachable m) (hid : id ∈ m.ids) (hseg : atoi seg = some id) :
    ∃ m1 : MockTodoStore,
      TodoHandler.UpdateTodo mockStore m seg (.ok t2)
          = (m1, { status := 200, contentType := "application/json",
                   body := .json (.object { t2 with ID := id }) })
      ∧ TodoHandler.GetTodo mockStore m1 seg
          = (m1, { status := 200, contentType := "application/json",
                   body := .json (.object { t2 with ID := id }) })
      ∧ m1.ids = m.ids ∧ m1.counter = m.counter
      ∧ ∀ (seg2 : String) (j : Int), atoi seg2 = some j → j ≠ id →
          (TodoHandler.GetTodo mockStore m1 seg2).2
            = (TodoHandler.GetTodo mockStore m seg2).2 := by
  obtain ⟨he, _, _⟩ := storeInv_of_reachable m hm
  cases hr : replaceFirst m.todos.toList { t2 with ID := id } with
  | none =>
    exact absurd hid ((replaceFirst_eq_none_iff _ _).mp hr)
  | some l1 =>
    refine ⟨{ m with todos := .mk l1 }, ?_, ?_, ?_, rfl, ?_⟩
    · simp [TodoHandler.UpdateTodo, hseg, mockStore, MockTodoStore.UpdateTodo, he, hr,
        respondJSON, Payload.isNilInterface, jsonEncode, StatusOK]
    · exact getTodo_mock_found _ seg id _ hseg he (findByID_replaceFirst_same _ _ _ hr)
    · exact replaceFirst_ids _ _ _ hr
    · intro seg2 j hseg2 hj
      have hsame : findByID l1 j = findByID m.todos.toList j :=
        findByID_replaceFirst_other _ _ _ j hr hj
      cases hf : findByID m.todos.toList j with
      | none =>
        rw [getTodo_mock_missing m seg2 j hseg2 he hf,
          getTodo_mock_missing { m with todos := .mk l1 } seg2 j hseg2 he (hsame.trans hf)]
      | some u =>
        rw [getTodo_mock_found m seg2 j u hseg2 he hf,
          getTodo_mock_found { m with todos := .mk l1 } seg2 j u hseg2 he (hsame.trans hf)]

/-- Witness for C3: todos 1 and 2 are held, the request is `PUT /todos/2` with a body that
names id 1. -/
theorem update_uses_path_id_witness :
    Reachable (runOps [.create Todo.zero, .create Todo.zero] MockTodoStore.empty)
    ∧ (2 : Int) ∈ (runOps [.create Todo.zero, .create Todo.zero] MockTodoStore.empty).ids
    ∧ atoi "2" = some 2
    ∧ ∃ m1 : MockTodoStore,
      TodoHandler.UpdateTodo mockStore
          (runOps [.create Todo.zero, .create Todo.zero] MockTodoStore.empty) "2"
          (.ok { ID := 1, Title := "tea", Completed := true })
          = (m1, { status := 200, contentType := "application/json",
                   body := .json (.object { ID := 2, Title := "tea", Completed := true }) })
      ∧ TodoHandler.GetTodo mockStore m1 "2"
          = (m1, { status := 200, contentType := "application/json",
                   body := .json (.object { ID := 2, Title := "tea", Completed := true }) })
      ∧ m1.ids = (runOps [.create Todo.zero, .create Todo.zero] MockTodoStore.empty).ids
      ∧ m1.counter
          = (runOps [.create Todo.zero, .create Todo.zero] MockTodoStore.empty).counter
      ∧ ∀ (seg2 : String) (j : Int), atoi seg2 = some j → j ≠ 2 →
          (TodoHandler.GetTodo mockStore m1 seg2).2
            = (TodoHandler.GetTodo mockStore
                (runOps [.create Todo.zero, .create Todo.zero] MockTodoStore.empty) seg2).2 :=
  ⟨⟨_, rfl⟩, by decide, by decide,
    update_uses_path_id (runOps [.create Todo.zero, .create Todo.zero] MockTodoStore.empty) 2
      { ID := 1, Title := "tea", Completed := true } "2" ⟨_, rfl⟩ (by decide) (by decide)⟩

/-- C4 (delete then get): in every reachable in-memory store state and for every path
segment that reads as an integer, after handler `DeleteTodo` has run on the segment (whatever
it answered), handler `GetTodo` on the same segment responds 404 "Todo not found". -/
theorem delete_then_get_not_found (m : MockTodoStore) (id : Int) (seg : String)
    (hm : Reachable m) (hseg : atoi seg = some id) :
    (TodoHandler.GetTodo mockStore (TodoHandler.DeleteTodo mockStore m seg).1 seg).2
      = { status := 404, contentType := "text/plain; charset=utf-8",
          body := .text "Todo not found" } := by
  have hinv := storeInv_of_reachable m hm
  have he := hinv.1
  cases hr : removeFirst m.todos.toList id with
  | none =>
    have hstate : (TodoHandler.DeleteTodo mockStore m seg).1 = m := by
      simp [TodoHandler.DeleteTodo, hseg, mockStore, MockTodoStore.DeleteTodo, he, hr]
    rw [hstate]
    have hmiss : findByID m.todos.toList id = none :=
      (findByID_eq_none_iff _ _).mpr ((removeFirst_eq_none_iff _ _).mp hr)
    rw [getTodo_mock_missing m seg id hseg he hmiss]
  | some l1 =>
    have hstate : (TodoHandler.DeleteTodo mockStore m seg).1 = { m with todos := .mk l1 } := by
      simp [TodoHandler.DeleteTodo, hseg, mockStore, MockTodoStore.DeleteTodo, he, hr]
    rw [hstate]
    have hl1 : l1 = m.todos.toList.filter (fun t => t.ID ≠ id) :=
      removeFirst_eq_filter _ _ _ hinv.nodup hr
    have hmiss : findByID l1 id = none := by
      rw [findByID_eq_none_iff, hl1]
      simp
    rw [getTodo_mock_missing { m with todos := .mk l1 } seg id hseg he hmiss]

/-- Witness for C4: todo 1 is held and `DELETE /todos/1` is followed by `GET /todos/1`. -/
theorem delete_then_get_not_found_witness :
    Reachable (runOps [.create Todo.zero] MockTodoStore.empty)
    ∧ atoi "1" = some 1
    ∧ (TodoHandler.GetTodo mockStore
        (TodoHandler.DeleteTodo mockStore (runOps [.create Todo.zero] MockTodoStore.empty)
          "1").1 "1").2
      = { status := 404, contentType := "text/plain; charset=utf-8",
          body := .text "Todo not found" } :=
  ⟨⟨_, rfl⟩, by decide,
    delete_then_get_not_found (runOps [.create Todo.zero] MockTodoStore.empty) 1 "1"
      ⟨_, rfl⟩ (by decide)⟩

/-! ## Status mapping of the handler over any store -/

/-- C5 (get-by-id status mapping): for every store behind the interface, every state of it
and every path segment, handler `GetTodo` either finds that the segment is no integer,
responds 400 "Invalid ID" and makes no store call; or reads an id from it, makes exactly one
store call, `GetTodoByID` with that id, and responds 404 "Todo not found" when that call
returned an error (whatever the error) and 200 with the returned todo when it returned
none. -/
theorem get_todo_status_mapping {σ : Type} (store : TodoStore σ) (s : σ)
    (log : List StoreCall) (seg : String) :
    (atoi seg = none
      ∧ TodoHandler.GetTodo (recording store) (s, log) seg
          = ((s, log), { status := 400, contentType := "text/plain; charset=utf-8",
                         body := .text "Invalid ID" }))
    ∨ ∃ id : Int, atoi seg = some id
      ∧ (TodoHandler.GetTodo (recording store) (s, log) seg).1
          = ((store.GetTodoByID s id).1, log ++ [StoreCall.GetTodoByID id])
      ∧ (((store.GetTodoByID s id).2.2 ≠ none
          ∧ (TodoHandler.GetTodo (recording store) (s, log) seg).2
              = { status := 404, contentType := "text/plain; charset=utf-8",
                  body := .text "Todo not found" })
        ∨ ((store.GetTodoByID s id).2.2 = none
          ∧ (TodoHandler.GetTodo (recording store) (s, log) seg).2
              = { status := 200, contentType := "application/json",
                  body := .json (jsonEncode (.todoPtr (store.GetTodoByID s id).2.1)) })) := by
  cases hseg : atoi seg with
  | none =>
    left
    exact ⟨rfl, by simp [TodoHandler.GetTodo, hseg, httpError, StatusBadRequest]⟩
  | some id =>
    right
    refine ⟨id, rfl, ?_⟩
    rcases hcall : store.GetTodoByID s id with ⟨s1, todo, err⟩
    cases err with
    | none =>
      refine ⟨?_, Or.inr ⟨rfl, ?_⟩⟩
      · simp [TodoHandler.GetTodo, hseg, recording, hcall]
      · simp [TodoHandler.GetTodo, hseg, recording, hcall, respondJSON,
          Payload.isNilInterface, StatusOK]
    | some e =>
      refine ⟨?_, Or.inl ⟨by simp, ?_⟩⟩
      · simp [TodoHandler.GetTodo, hseg, recording, hcall]
      · simp [TodoHandler.GetTodo, hseg, recording, hcall, httpError, StatusNotFound]

/-! ## Listing -/

/-- C6 (list on an empty store), evaluated on the code: with zero rows in the table, and
likewise on the freshly constructed in-memory store, handler `GetTodos` responds 200 and the
JSON document written is `null`, not the empty array; the in-memory store emptied by a
delete, whose slice is empty but not nil, does get the empty array. -/
theorem list_empty_store_writes_null (serial : Int) :
    TodoHandler.GetTodos postgresStore { rows := [], serial := serial, failure := none }
        = ({ rows := [], serial := serial, failure := none },
           { status := 200, contentType := "application/json", body := .json .null })
    ∧ TodoHandler.GetTodos mockStore MockTodoStore.empty
        = (MockTodoStore.empty,
           { status := 200, contentType := "application/json", body := .json .null })
    ∧ Body.json JsonDoc.null ≠ Body.json (JsonDoc.array [])
    ∧ (TodoHandler.GetTodos mockStore
        (runOps [.create Todo.zero, .delete 1] MockTodoStore.empty)).2
        = { status := 200, contentType := "application/json", body := .json (.array []) } := by
  refine ⟨?_, ?_, by decide, by decide⟩
  · simp [TodoHandler.GetTodos, postgresStore, PostgresStore.GetTodos,
      PgDb.selectAllOrderByID, scanRows, respondJSON, Payload.isNilInterface, jsonEncode,
      StatusOK]
  · decide

theorem pgDb_eta (db : PgDb) (h : db.failure = none) :
    ({ rows := db.rows, serial := db.serial, failure := none } : PgDb) = db := by
  cases db
  simp_all

/-- C8, counterexample: on the empty in-memory store (no injected error, no todo with id
99) `DeleteTodo 99` returns an error, and handler `DeleteTodo` on segment "99" responds 500,
not 204. -/
theorem delete_missing_in_memory_is_error :
    MockTodoStore.empty.err = none
    ∧ (99 : Int) ∉ MockTodoStore.empty.ids
    ∧ (MockTodoStore.empty.DeleteTodo 99).2 ≠ none
    ∧ (TodoHandler.DeleteTodo mockStore MockTodoStore.empty "99").2.status = 500
    ∧ (TodoHandler.DeleteTodo mockStore MockTodoStore.empty "99").2.status ≠ 204 := by
  decide

/-- C8, amended: deleting an id that is not there is no error in the relational store only.
For every in-memory store state with no injected error and every id that no stored todo has,
`DeleteTodo` returns the error "not found on delete" and leaves the store unchanged, so
handler `DeleteTodo` responds 500 with that text; for every healthy table without a row of
that id, the relational `DeleteTodo` returns no error and leaves the table unchanged, so the
handler responds 204 with an empty body. -/
theorem delete_missing_id (m : MockTodoStore) (db : PgDb) (id : Int) (seg : String)
    (he : m.err = none) (hid : id ∉ m.ids)
    (hdb : db.failure = none) (hrow : id ∉ db.rows.map Todo.ID)
    (hseg : atoi seg = some id) :
    m.DeleteTodo id = (m, some "not found on delete")
    ∧ TodoHandler.DeleteTodo mockStore m seg
        = (m, { status := 500, contentType := "text/plain; charset=utf-8",
                body := .text "not found on delete" })
    ∧ PostgresStore.DeleteTodo db id = (db, none)
    ∧ TodoHandler.DeleteTodo postgresStore db seg
        = (db, { status := 204, contentType := "application/json", body := .empty }) := by
  have hr : removeFirst m.todos.toList id = none := (removeFirst_eq_none_iff _ _).mpr hid
  have hfilter : db.rows.filter (fun r => r.ID ≠ id) = db.rows := by
    rw [List.filter_eq_self]
    intro r hmem
    have : r.ID ≠ id := fun e => hrow (by rw [← e]; exact List.mem_map_of_mem _ hmem)
    simpa using this
  have hpg : PostgresStore.DeleteTodo db id = (db, none) := by
    simp only [PostgresStore.DeleteTodo, PgDb.execDelete, hdb]
    have hfilter1 : List.filter (fun r => decide (r.ID ≠ id)) db.rows = db.rows := hfilter
    rw [hfilter1, pgDb_eta db hdb]
  refine ⟨?_, ?_, hpg, ?_⟩
  · simp [MockTodoStore.DeleteTodo, he, hr]
  · simp [TodoHandler.DeleteTodo, hseg, mockStore, MockTodoStore.DeleteTodo, he, hr,
      httpError, StatusInternalServerError]
  · simp [TodoHandler.DeleteTodo, hseg, postgresStore, hpg, respondJSON,
      Payload.isNilInterface, StatusNoContent]

/-- Witness for C8 (amended): a store and a table that both hold only todo 1, and the
request `DELETE /todos/7`. -/
theorem delete_missing_id_witness :
    (runOps [.create Todo.zero] MockTodoStore.empty).err = none
    ∧ (7 : Int) ∉ (runOps [.create Todo.zero] MockTodoStore.empty).ids
    ∧ (7 : Int) ∉ [({ ID := 1, Title := "a", Completed := false } : Todo)].map Todo.ID
    ∧ atoi "7" = some 7
    ∧ (runOps [.create Todo.zero] MockTodoStore.empty).DeleteTodo 7
        = (runOps [.create Todo.zero] MockTodoStore.empty, some "not found on delete")
    ∧ TodoHandler.DeleteTodo mockStore (runOps [.create Todo.zero] MockTodoStore.empty) "7"
        = (runOps [.create Todo.zero] MockTodoStore.empty,
           { status := 500, contentType := "text/plain; charset=utf-8",
             body := .text "not found on delete" })
    ∧ PostgresStore.DeleteTodo
          { rows := [{ ID := 1, Title := "a", Completed := false }], serial := 1,
            failure := none } 7
        = ({ rows := [{ ID := 1, Title := "a", Completed := false }], serial := 1,
             failure := none }, none)
    ∧ TodoHandler.DeleteTodo postgresStore
          { rows := [{ ID := 1, Title := "a", Completed := false }], serial := 1,
            failure := none } "7"
        = ({ rows := [{ ID := 1, Title := "a", Completed := false }], serial := 1,
             failure := none },
           { status := 204, contentType := "application/json", body := .empty }) :=
  ⟨by decide, by decide, by decide, by decide,
    delete_missing_id (runOps [.create Todo.zero] MockTodoStore.empty)
      { rows := [{ ID := 1, Title := "a", Completed := false }], serial := 1, failure := none }
      7 "7" (by decide) (by decide) (by decide) (by decide) (by decide)⟩

/-- C9 (delete of an existing id): in every reachable in-memory store state, for a path
segment that reads as an id held by the store, handler `DeleteTodo` responds 204 with an
empty body; the store afterwards holds the previous todos except the one with that id, the
others unchanged and in the same order, one todo fewer; the counter and the error field are
unchanged. -/
theorem delete_existing_id (m : MockTodoStore) (id : Int) (seg : String)
    (hm : Reachable m) (hid : id ∈ m.ids) (hseg : atoi seg = some id) :
    TodoHandler.DeleteTodo mockStore m seg
        = ({ todos := .mk (m.todos.toList.filter (fun t => t.ID ≠ id)),
             err := m.err, counter := m.counter },
           { status := 204, contentType := "application/json", body := .empty })
    ∧ (m.todos.toList.filter (fun t => t.ID ≠ id)).length + 1 = m.todos.len := by
  have hinv := storeInv_of_reachable m hm
  have he := hinv.1
  cases hr : removeFirst m.todos.toList id with
  | none => exact absurd hid ((removeFirst_eq_none_iff _ _).mp hr)
  | some l1 =>
    have hl1 : l1 = m.todos.toList.filter (fun t => t.ID ≠ id) :=
      removeFirst_eq_filter _ _ _ hinv.nodup hr
    have hlen := removeFirst_length _ _ _ hr
    constructor
    · rw [← hl1]
      simp [TodoHandler.DeleteTodo, hseg, mockStore, MockTodoStore.DeleteTodo, he, hr,
        respondJSON, Payload.isNilInterface, StatusNoContent]
    · rw [← hl1]
      exact hlen

/-- Witness for C9: todos 1, 2, 3 are held and the request is `DELETE /todos/2`. -/
theorem delete_existing_id_witness :
    Reachable
      (runOps [.create Todo.zero, .create Todo.zero, .create Todo.zero] MockTodoStore.empty)
    ∧ (2 : Int) ∈ (runOps [.create Todo.zero, .create Todo.zero, .create Todo.zero]
        MockTodoStore.empty).ids
    ∧ atoi "2" = some 2
    ∧ TodoHandler.DeleteTodo mockStore
        (runOps [.create Todo.zero, .create Todo.zero, .create Todo.zero]
          MockTodoStore.empty) "2"
      = ({ todos := .mk [{ ID := 1, Title := "", Completed := false },
                         { ID := 3, Title := "", Completed := false }],
           err := none, counter := 3 },
         { status := 204, contentType := "application/json", body := .empty }) :=
  ⟨⟨_, rfl⟩, by decide, by decide,
    (delete_existing_id
      (runOps [.create Todo.zero, .create Todo.zero, .create Todo.zero] MockTodoStore.empty)
      2 "2" ⟨_, rfl⟩ (by decide) (by decide)).1⟩

/-! ## Updating a row that is not there -/

/-- C10 (relational update of a missing id): `PostgresStore.UpdateTodo` returns exactly the
error of executing the statement, whatever the number of affected rows; so on a healthy
table with no row of the path id, for every decoded body, the statement affects zero rows,
handler `UpdateTodo` responds 200 with the body todo carrying the path id, and the table is
unchanged. -/
theorem update_missing_row_succeeds (db : PgDb) (id : Int) (t : Todo) (seg : String)
    (hdb : db.failure = none) (hrow : id ∉ db.rows.map Todo.ID)
    (hseg : atoi seg = some id) :
    (∀ (d : PgDb) (u : Todo),
        (PostgresStore.UpdateTodo d u).2.2 = (d.execUpdate u.Title u.Completed u.ID).2.err
        ∧ (PostgresStore.UpdateTodo d u).2.2 = d.failure)
    ∧ (db.execUpdate t.Title t.Completed id).2.rowsAffected = 0
    ∧ TodoHandler.UpdateTodo postgresStore db seg (.ok t)
        = (db, { status := 200, contentType := "application/json",
                 body := .json (.object { t with ID := id }) }) := by
  have hmap : db.rows.map (fun r =>
      if r.ID = id then { r with Title := t.Title, Completed := t.Completed } else r)
      = db.rows := by
    conv_rhs => rw [← List.map_id db.rows]
    apply List.map_congr_left
    intro r hmem
    have : r.ID ≠ id := fun e => hrow (by rw [← e]; exact List.mem_map_of_mem _ hmem)
    simp [this]
  refine ⟨?_, ?_, ?_⟩
  · intro d u
    cases hf : d.failure <;> simp [PostgresStore.UpdateTodo, PgDb.execUpdate, hf]
  · simp only [PgDb.execUpdate, hdb]
    rw [List.countP_eq_zero]
    intro r hmem
    have : r.ID ≠ id := fun e => hrow (by rw [← e]; exact List.mem_map_of_mem _ hmem)
    simpa using this
  · have hup : PostgresStore.UpdateTodo db { t with ID := id }
        = (db, { t with ID := id }, none) := by
      simp only [PostgresStore.UpdateTodo, PgDb.execUpdate, hdb]
      rw [hmap, pgDb_eta db hdb]
    simp [TodoHandler.UpdateTodo, hseg, postgresStore, hup, respondJSON,
      Payload.isNilInterface, jsonEncode, StatusOK]

/-- Witness for C10: the table holds only row 1 and the request is `PUT /todos/5`. -/
theorem update_missing_row_succeeds_witness :
    (5 : Int) ∉ [({ ID := 1, Title := "a", Completed := false } : Todo)].map Todo.ID
    ∧ atoi "5" = some 5
    ∧ (PgDb.execUpdate
          { rows := [{ ID := 1, Title := "a", Completed := false }], serial := 1,
            failure := none } "b" true 5).2.rowsAffected = 0
    ∧ TodoHandler.UpdateTodo postgresStore
        { rows := [{ ID := 1, Title := "a", Completed := false }], serial := 1,
          failure := none } "5" (.ok { ID := 1, Title := "b", Completed := true })
      = ({ rows := [{ ID := 1, Title := "a", Completed := false }], serial := 1,
           failure := none },
         { status := 200, contentType := "application/json",
           body := .json (.object { ID := 5, Title := "b", Completed := true }) }) :=
  ⟨by decide, by decide,
    (update_missing_row_succeeds
      { rows := [{ ID := 1, Title := "a", Completed := false }], serial := 1,
        failure := none }
      5 { ID := 1, Title := "b", Completed := true } "5"
      (by decide) (by decide) (by decide)).2⟩

end TodoApp
